import Mathlib

/-!
Verification of the dual-state procedural layout and morph engine of the
`sue` repository (a React Three Fiber christmas-tree scene).

The TypeScript source is shallowly embedded here:
* the morph / progress / easing arithmetic (`THREE.MathUtils.lerp`, the
  inline ease polynomials, the per-frame progress updates of
  `Ornaments.tsx`, `Foliage.tsx` (`Foliage`, `Gift`) and `Polaroids.tsx`)
  is transcribed generically over a linear ordered field, and is mostly
  used at `ℚ` (exact decidable arithmetic standing in for the exact real
  behaviour of the float expressions);
* the stochastic distribution generators of `src/utils/math.ts`
  (`generateTreePositions`, `generatePilePositions`,
  `generateAttributeBuffers`) and the polaroid slot table are embedded
  over `ℝ`, with every `Math.random()` call reading one value from an
  explicit stream `Unif` of numbers assumed to lie in `[0, 1]`.
-/

namespace Sue

/-- The `TreeState` enum from `src/types.ts`. -/
inductive TreeState : Type where
  | SCATTERED : TreeState
  | TREE_SHAPE : TreeState
deriving DecidableEq, Repr

/-- A 3-component vector, the `[number, number, number]` tuples and
`THREE.Vector3` / `THREE.Euler` values of the source. -/
structure Vec3 (α : Type) : Type where
  x : α
  y : α
  z : α
deriving DecidableEq, Repr

/-- The `DualPosition` record from `src/types.ts`. -/
structure DualPosition (α : Type) : Type where
  treePosition : Vec3 α
  scatterPosition : Vec3 α
  rotation : Vec3 α
  scale : α
deriving DecidableEq, Repr

variable {α : Type} [LinearOrderedField α]

/-- Transcription of `THREE.MathUtils.lerp(x, y, t) = (1 - t) * x + t * y` (three.js source;
note that `t` is not clamped). -/
def lerp (x y t : α) : α := (1 - t) * x + t * y

/-- The binary target each per-frame update derives from the external state:
`treeState === TreeState.TREE_SHAPE ? 1 : 0`. -/
def target (s : TreeState) : α := if s = TreeState.TREE_SHAPE then 1 else 0

/-- The inline CPU ease used by `Ornaments.tsx`, `Gift` and `PolaroidFrame`:
`t < 0.5 ? 2 * t * t : -1 + (4 - 2 * t) * t`. -/
def ease (t : α) : α := if t < 1 / 2 then 2 * t * t else -1 + (4 - 2 * t) * t

/-- The GLSL `easeInOut` of `FoliageVertexShader` (`Foliage.tsx`):
`t < 0.5 ? 4.0 * t * t * t : 1.0 - pow(-2.0 * t + 2.0, 3.0) / 2.0`. -/
def easeInOut (t : α) : α :=
  if t < 1 / 2 then 4 * t * t * t else 1 - (-2 * t + 2) ^ 3 / 2

/-- Modelled from the spec: the piecewise ease formula the spec states for
the CPU path, `ease(t) = 2t² for t < 0.5, else 1 - 2(1-t)²`.  Used only to
compare the code's ease against the spec's words. -/
def easeSpecFormula (t : α) : α :=
  if t < 1 / 2 then 2 * t ^ 2 else 1 - 2 * (1 - t) ^ 2

/-- The `Ornaments.tsx` per-frame progress update:
`newProgress = THREE.MathUtils.lerp(currentProgress, targetProgress, 2.5 * delta)`. -/
def ornamentsProgressStep (p : α) (s : TreeState) (delta : α) : α :=
  lerp p (target s) (5 / 2 * delta)

/-- The `Gift` (`Foliage.tsx`) per-frame progress update:
`newProgress = THREE.MathUtils.lerp(currentProgress, targetProgress, 2.0 * delta)`. -/
def giftProgressStep (p : α) (s : TreeState) (delta : α) : α :=
  lerp p (target s) (2 * delta)

/-- The `PolaroidFrame` (`Polaroids.tsx`) per-frame progress update:
`progress = THREE.MathUtils.lerp(currentProgress, targetProgress, delta * 2)`. -/
def polaroidProgressStep (p : α) (s : TreeState) (delta : α) : α :=
  lerp p (target s) (delta * 2)

/-- The `Foliage` (`Foliage.tsx`) per-frame uniform update:
`uProgress = THREE.MathUtils.lerp(uProgress, target, 0.03)`.  The `useFrame`
callback takes no frame delta: the smoothing factor is the constant `0.03`. -/
def foliageProgressStep (p : α) (s : TreeState) : α :=
  lerp p (target s) (3 / 100)

/-- Iterate a per-frame progress update under a held external state `s`,
feeding it the frame deltas `dts 0, dts 1, …`. -/
def progressSeq (step : α → TreeState → α → α) (s : TreeState) (dts : ℕ → α)
    (p0 : α) : ℕ → α
  | 0 => p0
  | n + 1 => step (progressSeq step s dts p0 n) s (dts n)

/-- The invariant claimed for a held-target progress sequence: it stays in
`[0, 1]` and moves monotonically toward the target (upward when the state
is `TREE_SHAPE`, downward when it is `SCATTERED`). -/
def heldTargetInvariant (seq : ℕ → α) (s : TreeState) : Prop :=
  (∀ n, 0 ≤ seq n ∧ seq n ≤ 1)
  ∧ (s = TreeState.TREE_SHAPE → ∀ n, seq n ≤ seq (n + 1))
  ∧ (s = TreeState.SCATTERED → ∀ n, seq (n + 1) ≤ seq n)

lemma target_nonneg (s : TreeState) : (0 : α) ≤ target s := by
  cases s <;> simp [target]

lemma target_le_one (s : TreeState) : (target s : α) ≤ 1 := by
  cases s <;> simp [target]

/-- One smoothing step with factor `k ∈ [0, 1]` lands between the current
value and the target. -/
lemma lerp_between {p t k : α} (hk0 : 0 ≤ k) (hk1 : k ≤ 1) :
    min p t ≤ lerp p t k ∧ lerp p t k ≤ max p t := by
  simp only [lerp]
  rcases le_total p t with h | h
  · constructor
    · rw [min_eq_left h]; nlinarith [mul_nonneg hk0 (sub_nonneg.mpr h)]
    · rw [max_eq_right h]; nlinarith [mul_nonneg (sub_nonneg.mpr hk1) (sub_nonneg.mpr h)]
  · constructor
    · rw [min_eq_right h]; nlinarith [mul_nonneg (sub_nonneg.mpr hk1) (sub_nonneg.mpr h)]
    · rw [max_eq_left h]; nlinarith [mul_nonneg hk0 (sub_nonneg.mpr h)]

/-- A held-target smoothing iteration whose per-frame factors stay in
`[0, 1]` satisfies the bounded-monotone invariant. -/
lemma heldTargetInvariant_of_step (step : α → TreeState → α → α) (s : TreeState)
    (dts : ℕ → α) (p0 : α) (hp0 : 0 ≤ p0) (hp1 : p0 ≤ 1)
    (hstep : ∀ p n, ∃ k, 0 ≤ k ∧ k ≤ 1 ∧ step p s (dts n) = lerp p (target s) k) :
    heldTargetInvariant (progressSeq step s dts p0) s := by
  have hbounds : ∀ n, 0 ≤ progressSeq step s dts p0 n ∧ progressSeq step s dts p0 n ≤ 1 := by
    intro n
    induction n with
    | zero => exact ⟨hp0, hp1⟩
    | succ n ih =>
      obtain ⟨k, hk0, hk1, hk⟩ := hstep (progressSeq step s dts p0 n) n
      have hstepn : progressSeq step s dts p0 (n + 1)
          = lerp (progressSeq step s dts p0 n) (target s) k := hk
      obtain ⟨hlo, hhi⟩ := lerp_between (p := progressSeq step s dts p0 n)
        (t := (target s : α)) hk0 hk1
      refine ⟨?_, ?_⟩
      · rw [hstepn]
        exact le_trans (le_min ih.1 (target_nonneg s)) hlo
      · rw [hstepn]
        exact le_trans hhi (max_le ih.2 (target_le_one s))
  refine ⟨hbounds, ?_, ?_⟩
  · intro hs n
    obtain ⟨k, hk0, hk1, hk⟩ := hstep (progressSeq step s dts p0 n) n
    have hstepn : progressSeq step s dts p0 (n + 1)
        = lerp (progressSeq step s dts p0 n) (target s) k := hk
    have htgt : (target s : α) = 1 := by simp [target, hs]
    rw [hstepn, htgt]
    have h1 := (hbounds n).2
    simp only [lerp]
    nlinarith [mul_nonneg hk0 (sub_nonneg.mpr h1)]
  · intro hs n
    obtain ⟨k, hk0, hk1, hk⟩ := hstep (progressSeq step s dts p0 n) n
    have hstepn : progressSeq step s dts p0 (n + 1)
        = lerp (progressSeq step s dts p0 n) (target s) k := hk
    have htgt : (target s : α) = 0 := by simp [target, hs]
    rw [hstepn, htgt]
    have h0 := (hbounds n).1
    simp only [lerp]
    nlinarith [mul_nonneg hk0 h0]

/-- C1 — amended.  Under a held external state, every per-frame progress
sequence of the four animated entities (ornament population, gift,
polaroid frame, foliage population) stays in `[0, 1]` and is monotonic
toward the target, **provided** each frame's smoothing factor
`rate * dt` is at most `1` (rate 2.5 for ornaments, 2 for gifts and
polaroid frames; the foliage factor is the constant `0.03`, so its
hypothesis is free).  The original claim (arbitrary `dt ≥ 0`) is false:
see the counterexample theorem. -/
theorem held_target_progress_bounded_monotone (s : TreeState) (p0 : ℚ)
    (dts : ℕ → ℚ) (hp0 : 0 ≤ p0) (hp1 : p0 ≤ 1) (hdts : ∀ n, 0 ≤ dts n) :
    ((∀ n, 5 / 2 * dts n ≤ 1) →
      heldTargetInvariant (progressSeq ornamentsProgressStep s dts p0) s)
    ∧ ((∀ n, 2 * dts n ≤ 1) →
      heldTargetInvariant (progressSeq giftProgressStep s dts p0) s)
    ∧ ((∀ n, dts n * 2 ≤ 1) →
      heldTargetInvariant (progressSeq polaroidProgressStep s dts p0) s)
    ∧ heldTargetInvariant
        (progressSeq (fun p s _ => foliageProgressStep p s) s dts p0) s := by
  refine ⟨?_, ?_, ?_, ?_⟩
  · intro hk
    exact heldTargetInvariant_of_step _ s dts p0 hp0 hp1 (fun p n =>
      ⟨5 / 2 * dts n, by nlinarith [hdts n], hk n, rfl⟩)
  · intro hk
    exact heldTargetInvariant_of_step _ s dts p0 hp0 hp1 (fun p n =>
      ⟨2 * dts n, by nlinarith [hdts n], hk n, rfl⟩)
  · intro hk
    exact heldTargetInvariant_of_step _ s dts p0 hp0 hp1 (fun p n =>
      ⟨dts n * 2, by nlinarith [hdts n], hk n, rfl⟩)
  · exact heldTargetInvariant_of_step _ s dts p0 hp0 hp1 (fun p n =>
      ⟨3 / 100, by norm_num, by norm_num, rfl⟩)

/-- C1 — counterexample to the original claim.  With the ornament rate 2.5
and the frame delta `dt = 1` (`dt ≥ 0`), a single frame starting from
progress `0` under a held `TREE_SHAPE` target yields progress `5/2`,
leaving `[0, 1]` and overshooting the target: `THREE.MathUtils.lerp` does
not clamp its interpolation factor. -/
theorem held_target_progress_counterexample :
    ornamentsProgressStep (0 : ℚ) TreeState.TREE_SHAPE 1 = 5 / 2
    ∧ ¬ (ornamentsProgressStep (0 : ℚ) TreeState.TREE_SHAPE 1 ≤ 1) := by
  constructor
  · norm_num [ornamentsProgressStep, lerp, target]
  · norm_num [ornamentsProgressStep, lerp, target]

/-- C1 — witness: the amended theorem applied at a held `TREE_SHAPE` state,
initial progress `0`, and constant frame delta `1/10`. -/
theorem held_target_progress_witness :
    0 ≤ progressSeq ornamentsProgressStep TreeState.TREE_SHAPE
        (fun _ => (1 : ℚ) / 10) 0 3
    ∧ progressSeq ornamentsProgressStep TreeState.TREE_SHAPE
        (fun _ => (1 : ℚ) / 10) 0 3 ≤ 1
    ∧ progressSeq ornamentsProgressStep TreeState.TREE_SHAPE
        (fun _ => (1 : ℚ) / 10) 0 3
      ≤ progressSeq ornamentsProgressStep TreeState.TREE_SHAPE
        (fun _ => (1 : ℚ) / 10) 0 4 := by
  obtain ⟨horn, -, -, -⟩ := held_target_progress_bounded_monotone
    TreeState.TREE_SHAPE 0 (fun _ => (1 : ℚ) / 10)
    (by norm_num) (by norm_num) (fun n => by norm_num)
  obtain ⟨hb, hmono, -⟩ := horn (fun n => by norm_num)
  exact ⟨(hb 3).1, (hb 3).2, hmono rfl 3⟩

/-- Componentwise position blend of the CPU path (`dummy.position.set` /
`groupRef.current.position.set` with three `THREE.MathUtils.lerp` calls):
`lerp(scatterPosition, treePosition, ease(progress))` on each axis. -/
def blendPosition (scatter tree : Vec3 α) (progress : α) : Vec3 α :=
  ⟨lerp scatter.x tree.x (ease progress),
   lerp scatter.y tree.y (ease progress),
   lerp scatter.z tree.z (ease progress)⟩

lemma ease_mem_unitInterval {t : α} (h0 : 0 ≤ t) (h1 : t ≤ 1) :
    0 ≤ ease t ∧ ease t ≤ 1 := by
  unfold ease
  split
  · constructor <;> nlinarith
  · constructor <;> nlinarith

lemma easeInOut_mem_unitInterval {t : α} (h0 : 0 ≤ t) (h1 : t ≤ 1) :
    0 ≤ easeInOut t ∧ easeInOut t ≤ 1 := by
  unfold easeInOut
  split
  · rename_i h
    constructor
    · nlinarith [mul_nonneg (mul_nonneg h0 h0) h0]
    · nlinarith [mul_nonneg (mul_nonneg h0 h0) (by linarith : (0 : α) ≤ 1 - 2 * t),
        mul_nonneg h0 (by linarith : (0 : α) ≤ 1 - 2 * t)]
  · rename_i h
    have hv0 : (0 : α) ≤ -2 * t + 2 := by linarith
    have hv1 : -2 * t + 2 ≤ 1 := by
      simp only [not_lt] at h
      linarith
    constructor
    · nlinarith [mul_nonneg (mul_nonneg hv0 hv0) hv0,
        mul_nonneg hv0 (sub_nonneg.mpr hv1),
        mul_nonneg (mul_nonneg hv0 hv0) (sub_nonneg.mpr hv1)]
    · nlinarith [mul_nonneg (mul_nonneg hv0 hv0) hv0]

lemma ease_eq_easeSpecFormula (t : α) : ease t = easeSpecFormula t := by
  unfold ease easeSpecFormula
  split <;> ring

/-- C2 — confirmed.  The CPU ease satisfies `ease 0 = 0`, `ease 1 = 1`,
maps `[0, 1]` into `[0, 1]`, and coincides with the spec's piecewise
formula `2t²` / `1 - 2(1-t)²` at every argument; the GLSL `easeInOut` of
the foliage shader likewise fixes `0` and `1` and preserves `[0, 1]`; and
for every progress value in `[0, 1]` the blended position is
`lerp(scatter, tree, e)` for an interpolation factor `e ∈ [0, 1]`, i.e. it
lies on the straight segment between the scattered and formed endpoints
and overshoots neither. -/
theorem eased_blend_is_interpolation :
    (ease (0 : ℚ) = 0 ∧ ease (1 : ℚ) = 1)
    ∧ (∀ t : ℚ, 0 ≤ t → t ≤ 1 → 0 ≤ ease t ∧ ease t ≤ 1)
    ∧ (∀ t : ℚ, ease t = easeSpecFormula t)
    ∧ (easeInOut (0 : ℚ) = 0 ∧ easeInOut (1 : ℚ) = 1)
    ∧ (∀ t : ℚ, 0 ≤ t → t ≤ 1 → 0 ≤ easeInOut t ∧ easeInOut t ≤ 1)
    ∧ (∀ (scatter tree : Vec3 ℚ) (t : ℚ), 0 ≤ t → t ≤ 1 →
        ∃ e : ℚ, 0 ≤ e ∧ e ≤ 1
          ∧ blendPosition scatter tree t
            = ⟨lerp scatter.x tree.x e, lerp scatter.y tree.y e,
               lerp scatter.z tree.z e⟩
          ∧ min scatter.x tree.x ≤ (blendPosition scatter tree t).x
          ∧ (blendPosition scatter tree t).x ≤ max scatter.x tree.x
          ∧ min scatter.y tree.y ≤ (blendPosition scatter tree t).y
          ∧ (blendPosition scatter tree t).y ≤ max scatter.y tree.y
          ∧ min scatter.z tree.z ≤ (blendPosition scatter tree t).z
          ∧ (blendPosition scatter tree t).z ≤ max scatter.z tree.z) := by
  refine ⟨⟨by norm_num [ease], by norm_num [ease]⟩,
    fun t h0 h1 => ease_mem_unitInterval h0 h1,
    ease_eq_easeSpecFormula,
    ⟨by norm_num [easeInOut], by norm_num [easeInOut]⟩,
    fun t h0 h1 => easeInOut_mem_unitInterval h0 h1,
    fun scatter tree t h0 h1 => ?_⟩
  obtain ⟨he0, he1⟩ := ease_mem_unitInterval h0 h1
  refine ⟨ease t, he0, he1, rfl, ?_, ?_, ?_, ?_, ?_, ?_⟩
  · exact (lerp_between he0 he1).1
  · exact (lerp_between he0 he1).2
  · exact (lerp_between he0 he1).1
  · exact (lerp_between he0 he1).2
  · exact (lerp_between he0 he1).1
  · exact (lerp_between he0 he1).2

/-- C2 — witness: the segment property of the eased blend at
`scatter = (10, 0, 0)`, `tree = (0, 0, 0)`, progress `1/3`. -/
theorem eased_blend_is_interpolation_witness :
    0 ≤ (1 : ℚ) / 3 ∧ (1 : ℚ) / 3 ≤ 1
    ∧ ∃ e : ℚ, 0 ≤ e ∧ e ≤ 1
        ∧ blendPosition (⟨10, 0, 0⟩ : Vec3 ℚ) ⟨0, 0, 0⟩ (1 / 3)
          = ⟨lerp 10 0 e, lerp 0 0 e, lerp 0 0 e⟩
        ∧ min (10 : ℚ) 0 ≤ (blendPosition (⟨10, 0, 0⟩ : Vec3 ℚ) ⟨0, 0, 0⟩ (1 / 3)).x
        ∧ (blendPosition (⟨10, 0, 0⟩ : Vec3 ℚ) ⟨0, 0, 0⟩ (1 / 3)).x ≤ max 10 0
        ∧ min (0 : ℚ) 0 ≤ (blendPosition (⟨10, 0, 0⟩ : Vec3 ℚ) ⟨0, 0, 0⟩ (1 / 3)).y
        ∧ (blendPosition (⟨10, 0, 0⟩ : Vec3 ℚ) ⟨0, 0, 0⟩ (1 / 3)).y ≤ max 0 0
        ∧ min (0 : ℚ) 0 ≤ (blendPosition (⟨10, 0, 0⟩ : Vec3 ℚ) ⟨0, 0, 0⟩ (1 / 3)).z
        ∧ (blendPosition (⟨10, 0, 0⟩ : Vec3 ℚ) ⟨0, 0, 0⟩ (1 / 3)).z ≤ max 0 0 := by
  refine ⟨by norm_num, by norm_num, ?_⟩
  exact eased_blend_is_interpolation.2.2.2.2.2 ⟨10, 0, 0⟩ ⟨0, 0, 0⟩ (1 / 3)
    (by norm_num) (by norm_num)

/-- C3 — amended.  Each frame, the ornament population, the gifts and the
polaroid frames update progress by exponential smoothing scaled by the
frame delta, `progress += (target - progress) * rate * dt` with rates
2.5, 2.0 and 2.0, where the target is 1 iff the external state is
`TREE_SHAPE`; the foliage population instead uses the constant per-frame
smoothing factor `0.03`, not scaled by `dt` (its `useFrame` callback does
not read the frame delta). -/
theorem progress_update_is_exponential_smoothing (p delta : ℚ) (s : TreeState) :
    ornamentsProgressStep p s delta = p + (target s - p) * (5 / 2 * delta)
    ∧ giftProgressStep p s delta = p + (target s - p) * (2 * delta)
    ∧ polaroidProgressStep p s delta = p + (target s - p) * (delta * 2)
    ∧ foliageProgressStep p s = p + (target s - p) * (3 / 100)
    ∧ (target s : ℚ) = (if s = TreeState.TREE_SHAPE then 1 else 0) := by
  refine ⟨?_, ?_, ?_, ?_, rfl⟩ <;>
    simp only [ornamentsProgressStep, giftProgressStep, polaroidProgressStep,
      foliageProgressStep, lerp] <;> ring

/-- C3 — counterexample to the original claim.  The foliage update does not
depend on the frame delta at all: starting at progress `0` with target
`TREE_SHAPE` it always advances by `0.03`, whereas the claimed law
`progress += (target - progress) * rate * dt` yields `0` at `dt = 0`.
So the foliage entity violates the claim. -/
theorem progress_update_counterexample :
    foliageProgressStep (0 : ℚ) TreeState.TREE_SHAPE = 3 / 100
    ∧ foliageProgressStep (0 : ℚ) TreeState.TREE_SHAPE ≠ 0 := by
  constructor
  · norm_num [foliageProgressStep, lerp, target]
  · norm_num [foliageProgressStep, lerp, target]

/-- C3 — witness: the amended smoothing law at `p = 1/2`, `dt = 1/60`,
state `SCATTERED`. -/
theorem progress_update_witness :
    ornamentsProgressStep (1 / 2 : ℚ) TreeState.SCATTERED (1 / 60)
      = 1 / 2 + (target TreeState.SCATTERED - 1 / 2) * (5 / 2 * (1 / 60)) := by
  exact (progress_update_is_exponential_smoothing (1 / 2) (1 / 60)
    TreeState.SCATTERED).1

/-- The `Ornaments.tsx` per-frame rotation write.  Below `t < 0.9` the instance
tumbles with elapsed time (`rotation[i] + time * 0.1`); at or above the
threshold the code sets the stored base rotation directly (source comment:
"Snap to uprightish or fixed rotation on tree").  The current orientation
is overwritten either way, so the update does not read it. -/
def ornamentsRotationUpdate (t time : α) (rotation : Vec3 α) : Vec3 α :=
  if t < 9 / 10 then
    ⟨rotation.x + time * (1 / 10), rotation.y + time * (1 / 10), rotation.z⟩
  else
    ⟨rotation.x, rotation.y, rotation.z⟩

/-- The `Gift` (`Foliage.tsx`) per-frame rotation write.  Below
`newProgress < 0.8` the gift tumbles with elapsed time; at or above the
threshold `x` and `z` are damped toward `0` by
`THREE.MathUtils.lerp(current, 0, delta * 5)` while `y` is set to the
stored base yaw `rotation[1]`. -/
def giftRotationUpdate (newProgress time delta : α) (rotation cur : Vec3 α) :
    Vec3 α :=
  if newProgress < 4 / 5 then
    ⟨rotation.x + time * (1 / 2), rotation.y + time * (3 / 10),
     rotation.z + time * (1 / 5)⟩
  else
    ⟨lerp cur.x 0 (delta * 5), rotation.y, lerp cur.z 0 (delta * 5)⟩

/-- The `PolaroidFrame` (`Polaroids.tsx`) rotation write in the settled branch
(`progress > 0.8`): each Euler axis is damped toward the memoized
`targetRotation` by `THREE.MathUtils.lerp(current, target, delta * 4)`,
then a sway `sin(time * 1.5 + index) * 0.05` is added to `z`. -/
noncomputable def polaroidSettledRotation (cur targetRotation : Vec3 ℝ)
    (delta time : ℝ) (index : ℕ) : Vec3 ℝ :=
  let rx := lerp cur.x targetRotation.x (delta * 4)
  let ry := lerp cur.y targetRotation.y (delta * 4)
  let rz := lerp cur.z targetRotation.z (delta * 4)
  let wind := Real.sin (time * (3 / 2) + index) * (1 / 20)
  ⟨rx, ry, rz + wind⟩

lemma lerp_sub_right (c t k : α) : lerp c t k - t = (1 - k) * (c - t) := by
  simp only [lerp]; ring

lemma lerp_zero_right (c k : α) : lerp c 0 k = (1 - k) * c := by
  simp only [lerp]; ring

/-- C7 — amended.  Rotation does follow two regimes split at a raw-progress
threshold (0.9 for ornaments, 0.8 for gifts and polaroid frames), and below
the threshold the ornament and gift rotations are driven purely by elapsed
time (they ignore the current orientation).  But the settled regimes
differ per component: a settled polaroid frame damps every axis toward its
stored target with factor `4·dt` (plus a bounded `z` sway), and is
continuous — a zero frame delta leaves `x` and `y` unchanged; a settled
gift damps `x` and `z` toward zero tilt with factor `5·dt` but sets its
yaw `y` to the stored base value directly; and a settled ornament performs
no damping at all — it sets the stored base rotation in a single frame
(the source comments "Snap"), which is the discontinuity the
counterexample exhibits. -/
theorem rotation_two_regimes (p time delta : ℚ) (rotation cur cur' : Vec3 ℚ)
    (curR targetR : Vec3 ℝ) (deltaR timeR : ℝ) (index : ℕ)
    (hdeltaR0 : 0 ≤ deltaR) (hdeltaR1 : deltaR * 4 ≤ 1) :
    (p < 9 / 10 →
      ornamentsRotationUpdate p time rotation
        = ⟨rotation.x + time * (1 / 10), rotation.y + time * (1 / 10),
           rotation.z⟩)
    ∧ (¬ p < 9 / 10 → ornamentsRotationUpdate p time rotation = rotation)
    ∧ (p < 4 / 5 →
        giftRotationUpdate p time delta rotation cur
          = giftRotationUpdate p time delta rotation cur'
        ∧ giftRotationUpdate p time delta rotation cur
          = ⟨rotation.x + time * (1 / 2), rotation.y + time * (3 / 10),
             rotation.z + time * (1 / 5)⟩)
    ∧ (¬ p < 4 / 5 →
        (giftRotationUpdate p time delta rotation cur).x
            = (1 - delta * 5) * cur.x
        ∧ (giftRotationUpdate p time delta rotation cur).y = rotation.y
        ∧ (giftRotationUpdate p time delta rotation cur).z
            = (1 - delta * 5) * cur.z
        ∧ (delta = 0 →
            giftRotationUpdate p time delta rotation cur
              = ⟨cur.x, rotation.y, cur.z⟩))
    ∧ ((polaroidSettledRotation curR targetR deltaR timeR index).x - targetR.x
          = (1 - deltaR * 4) * (curR.x - targetR.x)
        ∧ (polaroidSettledRotation curR targetR deltaR timeR index).y - targetR.y
          = (1 - deltaR * 4) * (curR.y - targetR.y)
        ∧ |(polaroidSettledRotation curR targetR deltaR timeR index).x - targetR.x|
          ≤ |curR.x - targetR.x|
        ∧ |(polaroidSettledRotation curR targetR deltaR timeR index).z
            - lerp curR.z targetR.z (deltaR * 4)| ≤ 1 / 20
        ∧ (deltaR = 0 →
            (polaroidSettledRotation curR targetR deltaR timeR index).x = curR.x
            ∧ (polaroidSettledRotation curR targetR deltaR timeR index).y
              = curR.y)) := by
  refine ⟨?_, ?_, ?_, ?_, ?_, ?_, ?_, ?_, ?_⟩
  · intro h; simp [ornamentsRotationUpdate, h]
  · intro h; simp [ornamentsRotationUpdate, h]
  · intro h; constructor <;> simp [giftRotationUpdate, h]
  · intro h
    refine ⟨?_, ?_, ?_, fun h0 => ?_⟩
    · simp [giftRotationUpdate, h, lerp]
    · simp [giftRotationUpdate, h]
    · simp [giftRotationUpdate, h, lerp]
    · simp [giftRotationUpdate, h, lerp, h0]
  · simp only [polaroidSettledRotation, lerp]; ring
  · simp only [polaroidSettledRotation, lerp]; ring
  · simp only [polaroidSettledRotation]
    rw [lerp_sub_right, abs_mul]
    have h14 : |1 - deltaR * 4| ≤ 1 := by
      rw [abs_le]
      constructor <;> nlinarith
    calc |1 - deltaR * 4| * |curR.x - targetR.x|
        ≤ 1 * |curR.x - targetR.x| :=
          mul_le_mul_of_nonneg_right h14 (abs_nonneg _)
      _ = |curR.x - targetR.x| := one_mul _
  · simp only [polaroidSettledRotation]
    have : lerp curR.z targetR.z (deltaR * 4)
        + Real.sin (timeR * (3 / 2) + index) * (1 / 20)
        - lerp curR.z targetR.z (deltaR * 4)
        = Real.sin (timeR * (3 / 2) + index) * (1 / 20) := by ring
    rw [this, abs_mul]
    calc |Real.sin (timeR * (3 / 2) + index)| * |(1 : ℝ) / 20|
        ≤ 1 * |(1 : ℝ) / 20| :=
          mul_le_mul_of_nonneg_right (Real.abs_sin_le_one _) (abs_nonneg _)
      _ = 1 / 20 := by norm_num
  · intro h0
    constructor <;> simp [polaroidSettledRotation, h0, lerp]

/-- C7 — counterexample to the original claim.  A settled ornament is not
smoothly damped toward its base rotation: at elapsed time 10 s, the frame
in which raw progress crosses the 0.9 threshold (which a tiny frame delta
can cause) rewrites the applied rotation from base + 1 rad on `x` and `y`
to the base itself — a discontinuous snap with no smoothing rate. -/
theorem rotation_two_regimes_counterexample :
    ornamentsRotationUpdate (89 / 100 : ℚ) 10 ⟨0, 0, 0⟩ = ⟨1, 1, 0⟩
    ∧ ornamentsRotationUpdate (9 / 10 : ℚ) 10 ⟨0, 0, 0⟩ = ⟨0, 0, 0⟩
    ∧ (⟨1, 1, 0⟩ : Vec3 ℚ) ≠ ⟨0, 0, 0⟩ := by
  refine ⟨?_, ?_, by decide⟩ <;> norm_num [ornamentsRotationUpdate]

/-- C7 — witness: the amended regime description applied at progress
`0.85`, elapsed time `2`, frame delta `0` for the rational components and
`0` frame delta for the polaroid damping. -/
theorem rotation_two_regimes_witness :
    (0 : ℝ) ≤ 0 ∧ (0 : ℝ) * 4 ≤ 1
    ∧ (¬ (85 / 100 : ℚ) < 4 / 5 →
        (giftRotationUpdate (85 / 100 : ℚ) 2 0 ⟨1, 2, 3⟩ ⟨4, 5, 6⟩).y = 2)
    ∧ ((polaroidSettledRotation ⟨1, 2, 3⟩ ⟨0, 0, 0⟩ 0 7 5).x = 1
        ∧ (polaroidSettledRotation ⟨1, 2, 3⟩ ⟨0, 0, 0⟩ 0 7 5).y = 2) := by
  refine ⟨le_refl 0, by norm_num, ?_, ?_⟩
  · intro h
    exact ((rotation_two_regimes (85 / 100 : ℚ) 2 0 ⟨1, 2, 3⟩ ⟨4, 5, 6⟩ ⟨4, 5, 6⟩
      ⟨1, 2, 3⟩ ⟨0, 0, 0⟩ 0 7 5 le_rfl (by norm_num)).2.2.2.1 h).2.1
  · exact (rotation_two_regimes (85 / 100 : ℚ) 2 0 ⟨1, 2, 3⟩ ⟨4, 5, 6⟩ ⟨4, 5, 6⟩
      ⟨1, 2, 3⟩ ⟨0, 0, 0⟩ 0 7 5 le_rfl (by norm_num)).2.2.2.2.2.2.2.2 rfl

/-- The `Ornaments.tsx` applied instance scale:
`s = scale * scaleFactor * (0.8 + 0.2 * ease)`. -/
def ornamentsScale (scale scaleFactor easeVal : α) : α :=
  scale * scaleFactor * (4 / 5 + 1 / 5 * easeVal)

/-- The `PolaroidFrame` state scale: `THREE.MathUtils.lerp(2.5, 1.0, ease)`
("Chaos (progress 0) -> Scale 2.5 …, Tree (progress 1) -> Scale 1.0"). -/
def polaroidStateScale (easeVal : α) : α := lerp (5 / 2) 1 easeVal

/-- The `Gift` applied scale: `groupRef.current.scale.setScalar(scale)` — the
per-element base scale, independent of progress. -/
def giftAppliedScale (scale : α) : α := scale

/-- C8 — amended.  Only the polaroid frames scale down from a larger
scattered base to a normal formed base (2.5 at progress 0 versus 1.0 at
progress 1).  The ornament scale blends in the opposite direction — it is
strictly *smaller* when fully scattered (factor 0.8) than when fully
formed (factor 1.0) — and the gift scale is constant across states. -/
theorem scale_blend_between_states (scale scaleFactor : ℚ)
    (hsc : 0 < scale) (hsf : 0 < scaleFactor) :
    polaroidStateScale (ease (0 : ℚ)) = 5 / 2
    ∧ polaroidStateScale (ease (1 : ℚ)) = 1
    ∧ polaroidStateScale (ease (1 : ℚ)) < polaroidStateScale (ease (0 : ℚ))
    ∧ ornamentsScale scale scaleFactor (ease 0)
        < ornamentsScale scale scaleFactor (ease 1)
    ∧ giftAppliedScale scale = scale := by
  refine ⟨by norm_num [polaroidStateScale, lerp, ease],
    by norm_num [polaroidStateScale, lerp, ease],
    by norm_num [polaroidStateScale, lerp, ease], ?_, rfl⟩
  have h : ease (0 : ℚ) = 0 ∧ ease (1 : ℚ) = 1 := by norm_num [ease]
  rw [h.1, h.2]
  unfold ornamentsScale
  nlinarith

/-- C8 — counterexample to the original claim.  For an ornament with base
scale 1 and scale factor 1, the applied scale when fully scattered is
`0.8`, the applied scale when fully formed is `1`, and `0.8 > 1` is false:
the scattered scale is not strictly greater than the formed scale. -/
theorem scale_blend_counterexample :
    ornamentsScale (1 : ℚ) 1 (ease 0) = 4 / 5
    ∧ ornamentsScale (1 : ℚ) 1 (ease 1) = 1
    ∧ ¬ ornamentsScale (1 : ℚ) 1 (ease 1) < ornamentsScale (1 : ℚ) 1 (ease 0) := by
  refine ⟨?_, ?_, ?_⟩ <;> norm_num [ornamentsScale, ease]

/-- C8 — witness: the amended scale relations at base scale 1 and scale
factor 1. -/
theorem scale_blend_witness :
    (0 : ℚ) < 1
    ∧ polaroidStateScale (ease (1 : ℚ)) < polaroidStateScale (ease (0 : ℚ))
    ∧ ornamentsScale (1 : ℚ) 1 (ease 0) < ornamentsScale (1 : ℚ) 1 (ease 1) := by
  obtain ⟨-, -, hpol, horn, -⟩ :=
    scale_blend_between_states 1 1 (by norm_num) (by norm_num)
  exact ⟨by norm_num, hpol, horn⟩

/-- A stream of `Math.random()` draws.  The source calls the global
generator with no seed; each call reads the next value of the stream. -/
def Unif : Type := ℕ → ℝ

/-- Advance the stream past the first `k` draws. -/
def Unif.drop (u : Unif) (k : ℕ) : Unif := fun n => u (n + k)

/-- Every draw of the stream lies in `[0, 1]`, the contract of
`Math.random()`. -/
def Unif.ok (u : Unif) : Prop := ∀ n, 0 ≤ u n ∧ u n ≤ 1

lemma Unif.ok.drop {u : Unif} (h : u.ok) (k : ℕ) : (u.drop k).ok :=
  fun n => h (n + k)

/-- Transcription of `randomRange(min, max) = Math.random() * (max - min) + min`
from `src/utils/math.ts`, with the draw made explicit. -/
def randomRange (r lo hi : ℝ) : ℝ := r * (hi - lo) + lo

/-- One loop iteration of `generateTreePositions` (`src/utils/math.ts`),
consuming nine draws `u 0 … u 8` in source order: height fraction
(`Math.pow(r, 1.5)`), spiral angle, radius, scatter `u`/`v`/radius, two
rotation draws, and the scale draw.  `Math.cbrt` on a nonnegative argument
is the real power `1/3`. -/
noncomputable def treeEntry (height maxRadius : ℝ) (u : Unif) :
    DualPosition ℝ :=
  let y := u 0 ^ ((3 : ℝ) / 2) * height
  let radiusAtY := maxRadius * (1 - y / height)
  let theta := u 1 * (Real.pi * 2 * 15)
  let r := Real.sqrt (u 2) * radiusAtY
  let treeX := r * Real.cos theta
  let treeZ := r * Real.sin theta
  let treeY := y - height / 2
  let scatterRadius : ℝ := 15
  let thetaS := 2 * Real.pi * u 3
  let phiS := Real.arccos (2 * u 4 - 1)
  let rS := u 5 ^ ((1 : ℝ) / 3) * scatterRadius
  { treePosition := ⟨treeX, treeY, treeZ⟩
    scatterPosition := ⟨rS * Real.sin phiS * Real.cos thetaS,
                        rS * Real.sin phiS * Real.sin thetaS,
                        rS * Real.cos phiS⟩
    rotation := ⟨u 6 * Real.pi, u 7 * Real.pi, 0⟩
    scale := randomRange (u 8) (1 / 2) (3 / 2) }

/-- Transcription of `generateTreePositions(count, height, maxRadius)`:
`count` loop iterations, nine draws each. -/
noncomputable def generateTreePositions (count : ℕ) (height maxRadius : ℝ)
    (u : Unif) : List (DualPosition ℝ) :=
  match count with
  | 0 => []
  | n + 1 =>
    treeEntry height maxRadius u
      :: generateTreePositions n height maxRadius (u.drop 9)

/-- One loop iteration of `generatePilePositions` (`src/utils/math.ts`),
consuming eight draws in source order: angle, planar radius, pile height
fraction, scatter `u`/`v`/radius, the yaw draw, and the scale draw. -/
noncomputable def pileEntry (radius floorY : ℝ) (u : Unif) : DualPosition ℝ :=
  let angle := u 0 * (Real.pi * 2)
  let r := Real.sqrt (u 1) * radius
  let x := Real.cos angle * r
  let z := Real.sin angle * r
  let pileHeight := max 0 ((1 - r / radius) * (5 / 2))
  let y := floorY + u 2 * pileHeight
  let scatterRadius : ℝ := 18
  let thetaS := 2 * Real.pi * u 3
  let phiS := Real.arccos (2 * u 4 - 1)
  let rS := u 5 ^ ((1 : ℝ) / 3) * scatterRadius
  { treePosition := ⟨x, y, z⟩
    scatterPosition := ⟨rS * Real.sin phiS * Real.cos thetaS,
                        rS * Real.sin phiS * Real.sin thetaS,
                        rS * Real.cos phiS⟩
    rotation := ⟨0, u 6 * (Real.pi * 2), 0⟩
    scale := randomRange (u 7) (4 / 5) (6 / 5) }

/-- Transcription of `generatePilePositions(count, radius, floorY)`. -/
noncomputable def generatePilePositions (count : ℕ) (radius floorY : ℝ)
    (u : Unif) : List (DualPosition ℝ) :=
  match count with
  | 0 => []
  | n + 1 =>
    pileEntry radius floorY u :: generatePilePositions n radius floorY (u.drop 8)

/-- One particle of `generateAttributeBuffers`; the source writes flat
`Float32Array`s at offset `3 * i`, modelled as one record per particle. -/
structure BufEntry : Type where
  treePosition : Vec3 ℝ
  scatterPosition : Vec3 ℝ
  color : Vec3 ℝ
  size : ℝ

/-- Hex color `#043927` ("Deep Emerald") as its 8-bit RGB channels over 255. -/
noncomputable def colorDeepEmerald : Vec3 ℝ := ⟨4 / 255, 57 / 255, 39 / 255⟩

/-- Hex color `#0F5940` ("Lighter Emerald"). -/
noncomputable def colorLightEmerald : Vec3 ℝ := ⟨15 / 255, 89 / 255, 64 / 255⟩

/-- Hex color `#FFD700` ("Gold accents"). -/
noncomputable def colorGold : Vec3 ℝ := ⟨255 / 255, 215 / 255, 0 / 255⟩

/-- One loop iteration of `generateAttributeBuffers` (`src/utils/math.ts`).
Draw order in the source: `yNormal` (`Math.pow(r, 1.2)`), `branchNoise`,
radius, angle, the three scatter coordinates (`(Math.random() - 0.5) * sr`
with `sr = 25` — an axis-aligned cube, not a ball), the gold-tip draw
(`Math.random() > 0.92`), then — only when the tip is not gold — the color
pick (`Math.random() > 0.5`), and finally the size draw. -/
noncomputable def bufEntry (height maxRadius : ℝ) (u : Unif) : BufEntry :=
  let yNormal := u 0 ^ ((6 : ℝ) / 5)
  let y := yNormal * height
  let rAtY := maxRadius * (1 - y / height)
  let branchNoise := (u 1 - 1 / 2) * (1 / 2)
  let radius := u 2 * rAtY + branchNoise
  let angle := u 3 * (Real.pi * 2)
  let sr : ℝ := 25
  let isGoldTip := u 7 > 23 / 25
  { treePosition :=
      ⟨Real.cos angle * radius, y - height / 2, Real.sin angle * radius⟩
    scatterPosition :=
      ⟨(u 4 - 1 / 2) * sr, (u 5 - 1 / 2) * sr, (u 6 - 1 / 2) * sr⟩
    color :=
      if isGoldTip then colorGold
      else if u 8 > 1 / 2 then colorDeepEmerald else colorLightEmerald
    size :=
      if isGoldTip then randomRange (u 8) (2 / 5) (4 / 5)
      else randomRange (u 9) (1 / 10) (1 / 2) }

/-- Number of draws one `generateAttributeBuffers` iteration consumes: the
color pick is skipped when the gold-tip draw fires, so nine draws for a
gold tip and ten otherwise. -/
noncomputable def bufDraws (u : Unif) : ℕ := if u 7 > 23 / 25 then 9 else 10

/-- Transcription of `generateAttributeBuffers(count, height, maxRadius)`. -/
noncomputable def generateAttributeBuffers (count : ℕ) (height maxRadius : ℝ)
    (u : Unif) : List BufEntry :=
  match count with
  | 0 => []
  | n + 1 =>
    bufEntry height maxRadius u
      :: generateAttributeBuffers n height maxRadius (u.drop (bufDraws u))

/-- Slot `i` of the polaroid slot table (`Polaroids.tsx`, the `slots`
memo): a deterministic cone-surface spiral position for the formed state
and a ball-sampled scatter position (radius 18), five draws per slot. -/
noncomputable def polaroidSlot (i : ℕ) (u : Unif) : DualPosition ℝ :=
  let count : ℝ := 20
  let height : ℝ := 11
  let maxRadius : ℝ := 4
  let yRel := (i : ℝ) / count
  let y := 5 - yRel * 10
  let r := maxRadius * (1 - (y + 11 / 2) / height) + 1 / 2
  let angle := (i : ℝ) * (12 / 5)
  let x := Real.cos angle * r
  let z := Real.sin angle * r
  let sr : ℝ := 18
  let thetaS := 2 * Real.pi * u 0
  let phiS := Real.arccos (2 * u 1 - 1)
  let rS := u 2 ^ ((1 : ℝ) / 3) * sr
  { treePosition := ⟨x, y, z⟩
    scatterPosition := ⟨rS * Real.sin phiS * Real.cos thetaS,
                        rS * Real.sin phiS * Real.sin thetaS,
                        rS * Real.cos phiS⟩
    rotation := ⟨u 3 * Real.pi, u 4 * Real.pi, 0⟩
    scale := 1 }

/-- The polaroid slot table: `for (let i = 0; i < 20; i++) { … }`. -/
noncomputable def polaroidSlots (u : Unif) : List (DualPosition ℝ) :=
  (List.range 20).map (fun i => polaroidSlot i (u.drop (5 * i)))

/-- Squared Euclidean norm of a 3-vector. -/
def normSq (v : Vec3 ℝ) : ℝ := v.x ^ 2 + v.y ^ 2 + v.z ^ 2

/-- Planar radius `sqrt(x² + z²)` of a position. -/
noncomputable def planarRadius (v : Vec3 ℝ) : ℝ :=
  Real.sqrt (v.x ^ 2 + v.z ^ 2)

lemma rpow_unit {x : ℝ} (e : ℝ) (h0 : 0 ≤ x) (h1 : x ≤ 1) (he : 0 ≤ e) :
    0 ≤ x ^ e ∧ x ^ e ≤ 1 :=
  ⟨Real.rpow_nonneg h0 e, Real.rpow_le_one h0 h1 he⟩

/-- The inverse-CDF ball sample has squared norm `rS²` and hence stays in
the ball of radius `R` when `rS = w^(1/3) * R` with `w ∈ [0, 1]`. -/
lemma specBall_normSq_le (w R thetaS phiS : ℝ) (hw0 : 0 ≤ w) (hw1 : w ≤ 1)
    (hR : 0 ≤ R) :
    (w ^ ((1 : ℝ) / 3) * R * Real.sin phiS * Real.cos thetaS) ^ 2
      + (w ^ ((1 : ℝ) / 3) * R * Real.sin phiS * Real.sin thetaS) ^ 2
      + (w ^ ((1 : ℝ) / 3) * R * Real.cos phiS) ^ 2 ≤ R ^ 2 := by
  have h1 := Real.sin_sq_add_cos_sq thetaS
  have h2 := Real.sin_sq_add_cos_sq phiS
  obtain ⟨hc0, hc1⟩ := rpow_unit ((1 : ℝ) / 3) hw0 hw1 (by norm_num)
  have key : (w ^ ((1 : ℝ) / 3) * R * Real.sin phiS * Real.cos thetaS) ^ 2
      + (w ^ ((1 : ℝ) / 3) * R * Real.sin phiS * Real.sin thetaS) ^ 2
      + (w ^ ((1 : ℝ) / 3) * R * Real.cos phiS) ^ 2
      = w ^ ((1 : ℝ) / 3) * w ^ ((1 : ℝ) / 3) * R ^ 2 := by
    linear_combination (w ^ ((1 : ℝ) / 3) * R) ^ 2 * Real.sin phiS ^ 2 * h1
      + (w ^ ((1 : ℝ) / 3) * R) ^ 2 * h2
  rw [key]
  nlinarith [mul_le_one₀ hc1 hc0 hc1, sq_nonneg R]

/-- Any single coordinate of the ball sample is bounded by the ball
radius, `f` being the product of the trigonometric factors. -/
lemma specBall_coord_abs_le (w R f : ℝ) (hw0 : 0 ≤ w) (hw1 : w ≤ 1)
    (hR : 0 ≤ R) (hf : |f| ≤ 1) : |w ^ ((1 : ℝ) / 3) * R * f| ≤ R := by
  obtain ⟨hc0, hc1⟩ := rpow_unit ((1 : ℝ) / 3) hw0 hw1 (by norm_num)
  rw [abs_mul, abs_of_nonneg (mul_nonneg hc0 hR)]
  nlinarith [abs_nonneg f, mul_nonneg hc0 hR,
    mul_le_of_le_one_left hR hc1]

lemma abs_sin_mul_cos_le_one (a b : ℝ) : |Real.sin a * Real.cos b| ≤ 1 := by
  rw [abs_mul]
  exact mul_le_one₀ (Real.abs_sin_le_one a) (abs_nonneg _) (Real.abs_cos_le_one b)

lemma abs_sin_mul_sin_le_one (a b : ℝ) : |Real.sin a * Real.sin b| ≤ 1 := by
  rw [abs_mul]
  exact mul_le_one₀ (Real.abs_sin_le_one a) (abs_nonneg _) (Real.abs_sin_le_one b)

/-- A coordinate of the cube sample `(U - 0.5) * 25` of
`generateAttributeBuffers` lies in `[-12.5, 12.5]`. -/
lemma cubeCoord_abs_le {v : ℝ} (h0 : 0 ≤ v) (h1 : v ≤ 1) :
    |(v - 1 / 2) * 25| ≤ 25 / 2 := by
  rw [abs_le]
  constructor <;> nlinarith

/-- The formed position of a `treeEntry` obeys the cone silhouette bound
exactly: its planar radius is at most
`maxRadius * (1 - (y + height/2)/height)`. -/
lemma treeEntry_planar (height maxRadius : ℝ) (u : Unif) (hu : u.ok)
    (hh : 0 < height) (hm : 0 ≤ maxRadius) :
    planarRadius (treeEntry height maxRadius u).treePosition
      ≤ maxRadius
        * (1 - ((treeEntry height maxRadius u).treePosition.y + height / 2)
            / height) := by
  obtain ⟨h00, h01⟩ := hu 0
  obtain ⟨h20, h21⟩ := hu 2
  obtain ⟨ha0, ha1⟩ := rpow_unit ((3 : ℝ) / 2) h00 h01 (by norm_num)
  have hs0 : 0 ≤ Real.sqrt (u 2) := Real.sqrt_nonneg _
  have hs1 : Real.sqrt (u 2) ≤ 1 := Real.sqrt_le_one.mpr h21
  have hx : (treeEntry height maxRadius u).treePosition.x
      = Real.sqrt (u 2)
          * (maxRadius * (1 - u 0 ^ ((3 : ℝ) / 2) * height / height))
          * Real.cos (u 1 * (Real.pi * 2 * 15)) := rfl
  have hz : (treeEntry height maxRadius u).treePosition.z
      = Real.sqrt (u 2)
          * (maxRadius * (1 - u 0 ^ ((3 : ℝ) / 2) * height / height))
          * Real.sin (u 1 * (Real.pi * 2 * 15)) := rfl
  have hy : (treeEntry height maxRadius u).treePosition.y
      = u 0 ^ ((3 : ℝ) / 2) * height - height / 2 := rfl
  have hcancel : u 0 ^ ((3 : ℝ) / 2) * height / height = u 0 ^ ((3 : ℝ) / 2) :=
    mul_div_cancel_right₀ _ hh.ne'
  set a := u 0 ^ ((3 : ℝ) / 2) with hadef
  have hr0 : 0 ≤ maxRadius * (1 - a) := mul_nonneg hm (by linarith)
  have hrr : 0 ≤ Real.sqrt (u 2) * (maxRadius * (1 - a)) := mul_nonneg hs0 hr0
  have hRHS : maxRadius
      * (1 - ((treeEntry height maxRadius u).treePosition.y + height / 2)
          / height) = maxRadius * (1 - a) := by
    rw [hy]
    have h1 : a * height - height / 2 + height / 2 = a * height := by ring
    rw [h1, mul_div_cancel_right₀ _ hh.ne']
  have hplan : planarRadius (treeEntry height maxRadius u).treePosition
      = Real.sqrt (u 2) * (maxRadius * (1 - a)) := by
    unfold planarRadius
    rw [hx, hz, hcancel]
    have hsum : (Real.sqrt (u 2) * (maxRadius * (1 - a))
          * Real.cos (u 1 * (Real.pi * 2 * 15))) ^ 2
        + (Real.sqrt (u 2) * (maxRadius * (1 - a))
          * Real.sin (u 1 * (Real.pi * 2 * 15))) ^ 2
        = (Real.sqrt (u 2) * (maxRadius * (1 - a))) ^ 2 := by
      linear_combination (Real.sqrt (u 2) * (maxRadius * (1 - a))) ^ 2
        * Real.sin_sq_add_cos_sq (u 1 * (Real.pi * 2 * 15))
    rw [hsum, Real.sqrt_sq hrr]
  rw [hplan, hRHS]
  exact mul_le_of_le_one_left hr0 hs1

/-- The formed position of a `bufEntry` can exceed the cone silhouette by
the branch noise, which is bounded by `1/4`. -/
lemma bufEntry_planar (height maxRadius : ℝ) (u : Unif) (hu : u.ok)
    (hh : 0 < height) (hm : 0 ≤ maxRadius) :
    planarRadius (bufEntry height maxRadius u).treePosition
      ≤ maxRadius
          * (1 - ((bufEntry height maxRadius u).treePosition.y + height / 2)
              / height) + 1 / 4 := by
  obtain ⟨h00, h01⟩ := hu 0
  obtain ⟨h10, h11⟩ := hu 1
  obtain ⟨h20, h21⟩ := hu 2
  obtain ⟨ha0, ha1⟩ := rpow_unit ((6 : ℝ) / 5) h00 h01 (by norm_num)
  have hx : (bufEntry height maxRadius u).treePosition.x
      = Real.cos (u 3 * (Real.pi * 2))
          * (u 2 * (maxRadius * (1 - u 0 ^ ((6 : ℝ) / 5) * height / height))
            + (u 1 - 1 / 2) * (1 / 2)) := rfl
  have hz : (bufEntry height maxRadius u).treePosition.z
      = Real.sin (u 3 * (Real.pi * 2))
          * (u 2 * (maxRadius * (1 - u 0 ^ ((6 : ℝ) / 5) * height / height))
            + (u 1 - 1 / 2) * (1 / 2)) := rfl
  have hy : (bufEntry height maxRadius u).treePosition.y
      = u 0 ^ ((6 : ℝ) / 5) * height - height / 2 := rfl
  have hcancel : u 0 ^ ((6 : ℝ) / 5) * height / height = u 0 ^ ((6 : ℝ) / 5) :=
    mul_div_cancel_right₀ _ hh.ne'
  set a := u 0 ^ ((6 : ℝ) / 5) with hadef
  have hr0 : 0 ≤ maxRadius * (1 - a) := mul_nonneg hm (by linarith)
  have hplan : planarRadius (bufEntry height maxRadius u).treePosition
      = |u 2 * (maxRadius * (1 - a)) + (u 1 - 1 / 2) * (1 / 2)| := by
    unfold planarRadius
    rw [hx, hz, hcancel]
    have hsum : (Real.cos (u 3 * (Real.pi * 2))
          * (u 2 * (maxRadius * (1 - a)) + (u 1 - 1 / 2) * (1 / 2))) ^ 2
        + (Real.sin (u 3 * (Real.pi * 2))
          * (u 2 * (maxRadius * (1 - a)) + (u 1 - 1 / 2) * (1 / 2))) ^ 2
        = (u 2 * (maxRadius * (1 - a)) + (u 1 - 1 / 2) * (1 / 2)) ^ 2 := by
      linear_combination (u 2 * (maxRadius * (1 - a)) + (u 1 - 1 / 2) * (1 / 2)) ^ 2
        * Real.sin_sq_add_cos_sq (u 3 * (Real.pi * 2))
    rw [hsum, Real.sqrt_sq_eq_abs]
  have hRHS : maxRadius
      * (1 - ((bufEntry height maxRadius u).treePosition.y + height / 2)
          / height) = maxRadius * (1 - a) := by
    rw [hy]
    have h1 : a * height - height / 2 + height / 2 = a * height := by ring
    rw [h1, mul_div_cancel_right₀ _ hh.ne']
  rw [hplan, hRHS]
  rw [abs_le]
  constructor
  · nlinarith [mul_nonneg h20 hr0]
  · nlinarith [mul_le_of_le_one_left hr0 h21]

lemma generateTreePositions_length (count : ℕ) (height maxRadius : ℝ)
    (u : Unif) : (generateTreePositions count height maxRadius u).length = count := by
  induction count generalizing u with
  | zero => rfl
  | succ n ih => simp [generateTreePositions, ih]

lemma generatePilePositions_length (count : ℕ) (radius floorY : ℝ)
    (u : Unif) : (generatePilePositions count radius floorY u).length = count := by
  induction count generalizing u with
  | zero => rfl
  | succ n ih => simp [generatePilePositions, ih]

lemma generateAttributeBuffers_length (count : ℕ) (height maxRadius : ℝ)
    (u : Unif) : (generateAttributeBuffers count height maxRadius u).length = count := by
  induction count generalizing u with
  | zero => rfl
  | succ n ih => simp [generateAttributeBuffers, ih]

lemma polaroidSlots_length (u : Unif) : (polaroidSlots u).length = 20 := by
  simp [polaroidSlots]

/-- Every element of `generateTreePositions` is a `treeEntry` of some
stream whose draws all lie in `[0, 1]`. -/
lemma mem_generateTreePositions {count : ℕ} {height maxRadius : ℝ} {u : Unif}
    (hu : u.ok) {e : DualPosition ℝ}
    (he : e ∈ generateTreePositions count height maxRadius u) :
    ∃ v : Unif, v.ok ∧ e = treeEntry height maxRadius v := by
  induction count generalizing u with
  | zero => simp [generateTreePositions] at he
  | succ n ih =>
    rw [generateTreePositions, List.mem_cons] at he
    rcases he with he | he
    · exact ⟨u, hu, he⟩
    · exact ih (hu.drop 9) he

/-- Every element of `generatePilePositions` is a `pileEntry` of some
stream whose draws all lie in `[0, 1]`. -/
lemma mem_generatePilePositions {count : ℕ} {radius floorY : ℝ} {u : Unif}
    (hu : u.ok) {e : DualPosition ℝ}
    (he : e ∈ generatePilePositions count radius floorY u) :
    ∃ v : Unif, v.ok ∧ e = pileEntry radius floorY v := by
  induction count generalizing u with
  | zero => simp [generatePilePositions] at he
  | succ n ih =>
    rw [generatePilePositions, List.mem_cons] at he
    rcases he with he | he
    · exact ⟨u, hu, he⟩
    · exact ih (hu.drop 8) he

/-- Every element of `generateAttributeBuffers` is a `bufEntry` of some
stream whose draws all lie in `[0, 1]`. -/
lemma mem_generateAttributeBuffers {count : ℕ} {height maxRadius : ℝ}
    {u : Unif} (hu : u.ok) {e : BufEntry}
    (he : e ∈ generateAttributeBuffers count height maxRadius u) :
    ∃ v : Unif, v.ok ∧ e = bufEntry height maxRadius v := by
  induction count generalizing u with
  | zero => simp [generateAttributeBuffers] at he
  | succ n ih =>
    rw [generateAttributeBuffers, List.mem_cons] at he
    rcases he with he | he
    · exact ⟨u, hu, he⟩
    · exact ih (hu.drop (bufDraws u)) he

/-- Every element of the polaroid slot table is a `polaroidSlot` of some
index and some stream whose draws all lie in `[0, 1]`. -/
lemma mem_polaroidSlots {u : Unif} (hu : u.ok) {e : DualPosition ℝ}
    (he : e ∈ polaroidSlots u) :
    ∃ i : ℕ, ∃ v : Unif, v.ok ∧ e = polaroidSlot i v := by
  rw [polaroidSlots, List.mem_map] at he
  obtain ⟨i, -, hi⟩ := he
  exact ⟨i, u.drop (5 * i), hu.drop _, hi.symm⟩

/-- The scattered position of a `treeEntry` lies in the ball of radius 15. -/
lemma treeEntry_scatter_normSq (height maxRadius : ℝ) (u : Unif) (hu : u.ok) :
    normSq (treeEntry height maxRadius u).scatterPosition ≤ 15 ^ 2 := by
  obtain ⟨h50, h51⟩ := hu 5
  exact specBall_normSq_le (u 5) 15 (2 * Real.pi * u 3)
    (Real.arccos (2 * u 4 - 1)) h50 h51 (by norm_num)

/-- The scattered position of a `pileEntry` lies in the ball of radius 18. -/
lemma pileEntry_scatter_normSq (radius floorY : ℝ) (u : Unif) (hu : u.ok) :
    normSq (pileEntry radius floorY u).scatterPosition ≤ 18 ^ 2 := by
  obtain ⟨h50, h51⟩ := hu 5
  exact specBall_normSq_le (u 5) 18 (2 * Real.pi * u 3)
    (Real.arccos (2 * u 4 - 1)) h50 h51 (by norm_num)

/-- The scattered position of a `polaroidSlot` lies in the ball of
radius 18. -/
lemma polaroidSlot_scatter_normSq (i : ℕ) (u : Unif) (hu : u.ok) :
    normSq (polaroidSlot i u).scatterPosition ≤ 18 ^ 2 := by
  obtain ⟨h20, h21⟩ := hu 2
  exact specBall_normSq_le (u 2) 18 (2 * Real.pi * u 0)
    (Real.arccos (2 * u 1 - 1)) h20 h21 (by norm_num)

/-- The scattered position of a `bufEntry` lies in the cube
`[-12.5, 12.5]³`, hence in the ball of radius `12.5·√3 < 25`. -/
lemma bufEntry_scatter_bounds (height maxRadius : ℝ) (u : Unif) (hu : u.ok) :
    |(bufEntry height maxRadius u).scatterPosition.x| ≤ 25 / 2
    ∧ |(bufEntry height maxRadius u).scatterPosition.y| ≤ 25 / 2
    ∧ |(bufEntry height maxRadius u).scatterPosition.z| ≤ 25 / 2
    ∧ normSq (bufEntry height maxRadius u).scatterPosition ≤ 3 * (25 / 2) ^ 2 := by
  obtain ⟨h40, h41⟩ := hu 4
  obtain ⟨h50, h51⟩ := hu 5
  obtain ⟨h60, h61⟩ := hu 6
  have hx : (bufEntry height maxRadius u).scatterPosition.x
      = (u 4 - 1 / 2) * 25 := rfl
  have hy : (bufEntry height maxRadius u).scatterPosition.y
      = (u 5 - 1 / 2) * 25 := rfl
  have hz : (bufEntry height maxRadius u).scatterPosition.z
      = (u 6 - 1 / 2) * 25 := rfl
  have h1 := cubeCoord_abs_le h40 h41
  have h2 := cubeCoord_abs_le h50 h51
  have h3 := cubeCoord_abs_le h60 h61
  refine ⟨by rw [hx]; exact h1, by rw [hy]; exact h2, by rw [hz]; exact h3, ?_⟩
  unfold normSq
  rw [hx, hy, hz]
  have e1 : ((u 4 - 1 / 2) * 25) ^ 2 ≤ (25 / 2) ^ 2 := by
    rw [← sq_abs]
    exact pow_le_pow_left (abs_nonneg _) h1 2
  have e2 : ((u 5 - 1 / 2) * 25) ^ 2 ≤ (25 / 2) ^ 2 := by
    rw [← sq_abs]
    exact pow_le_pow_left (abs_nonneg _) h2 2
  have e3 : ((u 6 - 1 / 2) * 25) ^ 2 ≤ (25 / 2) ^ 2 := by
    rw [← sq_abs]
    exact pow_le_pow_left (abs_nonneg _) h3 2
  linarith

lemma abs_mul_le_of_abs_le_one_left {a b A : ℝ} (ha : |a| ≤ 1) (hb : |b| ≤ A) :
    |a * b| ≤ A := by
  rw [abs_mul]
  exact le_trans (mul_le_of_le_one_left (abs_nonneg b) ha) hb

lemma abs_mul3_le {a b c A : ℝ} (ha : |a| ≤ 1) (hb : |b| ≤ A) (hc : |c| ≤ 1) :
    |a * b * c| ≤ A := by
  rw [abs_mul, abs_mul]
  have h2 : |a| * |b| * |c| ≤ |a| * |b| :=
    mul_le_of_le_one_right (mul_nonneg (abs_nonneg a) (abs_nonneg b)) hc
  have h1 : |a| * |b| ≤ |b| := mul_le_of_le_one_left (abs_nonneg b) ha
  exact le_trans h2 (le_trans h1 hb)

/-- Every component of a `treeEntry` formed position is bounded by an
explicit function of the shape parameters. -/
lemma treeEntry_formed_bounds (height maxRadius : ℝ) (u : Unif) (hu : u.ok)
    (hh : height ≠ 0) :
    |(treeEntry height maxRadius u).treePosition.x| ≤ |maxRadius|
    ∧ |(treeEntry height maxRadius u).treePosition.y| ≤ 3 / 2 * |height|
    ∧ |(treeEntry height maxRadius u).treePosition.z| ≤ |maxRadius| := by
  obtain ⟨h00, h01⟩ := hu 0
  obtain ⟨h20, h21⟩ := hu 2
  obtain ⟨ha0, ha1⟩ := rpow_unit ((3 : ℝ) / 2) h00 h01 (by norm_num)
  have hx : (treeEntry height maxRadius u).treePosition.x
      = Real.sqrt (u 2)
          * (maxRadius * (1 - u 0 ^ ((3 : ℝ) / 2) * height / height))
          * Real.cos (u 1 * (Real.pi * 2 * 15)) := rfl
  have hz : (treeEntry height maxRadius u).treePosition.z
      = Real.sqrt (u 2)
          * (maxRadius * (1 - u 0 ^ ((3 : ℝ) / 2) * height / height))
          * Real.sin (u 1 * (Real.pi * 2 * 15)) := rfl
  have hy : (treeEntry height maxRadius u).treePosition.y
      = u 0 ^ ((3 : ℝ) / 2) * height - height / 2 := rfl
  have hcancel : u 0 ^ ((3 : ℝ) / 2) * height / height = u 0 ^ ((3 : ℝ) / 2) :=
    mul_div_cancel_right₀ _ hh
  set a := u 0 ^ ((3 : ℝ) / 2) with hadef
  have hsab : |Real.sqrt (u 2)| ≤ 1 := by
    rw [abs_of_nonneg (Real.sqrt_nonneg _)]
    exact Real.sqrt_le_one.mpr h21
  have hM : |maxRadius * (1 - a)| ≤ |maxRadius| := by
    rw [abs_mul]
    have h1a : |1 - a| ≤ 1 := by
      rw [abs_le]
      constructor <;> linarith
    exact mul_le_of_le_one_right (abs_nonneg maxRadius) h1a
  have hyb : |a * height - height / 2| ≤ 3 / 2 * |height| := by
    have htri := abs_add (a * height) (-(height / 2))
    rw [abs_neg] at htri
    have h1 : |a * height| ≤ |height| := by
      rw [abs_mul]
      have haa : |a| ≤ 1 := by rwa [abs_of_nonneg ha0]
      exact mul_le_of_le_one_left (abs_nonneg height) haa
    have h2 : |height / 2| = |height| / 2 := by
      rw [abs_div]
      norm_num
    have h3 : a * height + -(height / 2) = a * height - height / 2 := by ring
    rw [h3] at htri
    linarith
  refine ⟨?_, ?_, ?_⟩
  · rw [hx, hcancel]
    exact abs_mul3_le hsab hM (Real.abs_cos_le_one _)
  · rw [hy]
    exact hyb
  · rw [hz, hcancel]
    exact abs_mul3_le hsab hM (Real.abs_sin_le_one _)

/-- Every component of a `pileEntry` formed position is bounded: the
planar coordinates by the pile radius, and the height between the floor
and the floor plus the peak mound height `2.5`. -/
lemma pileEntry_formed_bounds (radius floorY : ℝ) (u : Unif) (hu : u.ok)
    (hr : radius ≠ 0) :
    |(pileEntry radius floorY u).treePosition.x| ≤ |radius|
    ∧ floorY ≤ (pileEntry radius floorY u).treePosition.y
    ∧ (pileEntry radius floorY u).treePosition.y ≤ floorY + 5 / 2
    ∧ |(pileEntry radius floorY u).treePosition.z| ≤ |radius| := by
  obtain ⟨h10, h11⟩ := hu 1
  obtain ⟨h20, h21⟩ := hu 2
  have hx : (pileEntry radius floorY u).treePosition.x
      = Real.cos (u 0 * (Real.pi * 2)) * (Real.sqrt (u 1) * radius) := rfl
  have hz : (pileEntry radius floorY u).treePosition.z
      = Real.sin (u 0 * (Real.pi * 2)) * (Real.sqrt (u 1) * radius) := rfl
  have hy : (pileEntry radius floorY u).treePosition.y
      = floorY + u 2
          * max 0 ((1 - Real.sqrt (u 1) * radius / radius) * (5 / 2)) := rfl
  have hcancel : Real.sqrt (u 1) * radius / radius = Real.sqrt (u 1) :=
    mul_div_cancel_right₀ _ hr
  have hs0 : 0 ≤ Real.sqrt (u 1) := Real.sqrt_nonneg _
  have hs1 : Real.sqrt (u 1) ≤ 1 := Real.sqrt_le_one.mpr h11
  have hrb : |Real.sqrt (u 1) * radius| ≤ |radius| := by
    rw [abs_mul, abs_of_nonneg hs0]
    exact mul_le_of_le_one_left (abs_nonneg radius) hs1
  have hph0 : 0 ≤ max 0 ((1 - Real.sqrt (u 1)) * (5 / 2)) := le_max_left _ _
  have hph1 : max 0 ((1 - Real.sqrt (u 1)) * (5 / 2)) ≤ 5 / 2 :=
    max_le (by norm_num) (by nlinarith)
  refine ⟨?_, ?_, ?_, ?_⟩
  · rw [hx]
    exact abs_mul_le_of_abs_le_one_left (Real.abs_cos_le_one _) hrb
  · rw [hy, hcancel]
    nlinarith [mul_nonneg h20 hph0]
  · rw [hy, hcancel]
    nlinarith [mul_le_of_le_one_left hph0 h21]
  · rw [hz]
    exact abs_mul_le_of_abs_le_one_left (Real.abs_sin_le_one _) hrb

/-- Every component of a `bufEntry` formed position is bounded: the
planar coordinates by the cone radius plus the `1/4` branch noise. -/
lemma bufEntry_formed_bounds (height maxRadius : ℝ) (u : Unif) (hu : u.ok)
    (hh : height ≠ 0) :
    |(bufEntry height maxRadius u).treePosition.x| ≤ |maxRadius| + 1 / 4
    ∧ |(bufEntry height maxRadius u).treePosition.y| ≤ 3 / 2 * |height|
    ∧ |(bufEntry height maxRadius u).treePosition.z| ≤ |maxRadius| + 1 / 4 := by
  obtain ⟨h00, h01⟩ := hu 0
  obtain ⟨h10, h11⟩ := hu 1
  obtain ⟨h20, h21⟩ := hu 2
  obtain ⟨ha0, ha1⟩ := rpow_unit ((6 : ℝ) / 5) h00 h01 (by norm_num)
  have hx : (bufEntry height maxRadius u).treePosition.x
      = Real.cos (u 3 * (Real.pi * 2))
          * (u 2 * (maxRadius * (1 - u 0 ^ ((6 : ℝ) / 5) * height / height))
            + (u 1 - 1 / 2) * (1 / 2)) := rfl
  have hz : (bufEntry height maxRadius u).treePosition.z
      = Real.sin (u 3 * (Real.pi * 2))
          * (u 2 * (maxRadius * (1 - u 0 ^ ((6 : ℝ) / 5) * height / height))
            + (u 1 - 1 / 2) * (1 / 2)) := rfl
  have hy : (bufEntry height maxRadius u).treePosition.y
      = u 0 ^ ((6 : ℝ) / 5) * height - height / 2 := rfl
  have hcancel : u 0 ^ ((6 : ℝ) / 5) * height / height = u 0 ^ ((6 : ℝ) / 5) :=
    mul_div_cancel_right₀ _ hh
  set a := u 0 ^ ((6 : ℝ) / 5) with hadef
  have hM : |maxRadius * (1 - a)| ≤ |maxRadius| := by
    rw [abs_mul]
    have h1a : |1 - a| ≤ 1 := by
      rw [abs_le]
      constructor <;> linarith
    exact mul_le_of_le_one_right (abs_nonneg maxRadius) h1a
  have hrad : |u 2 * (maxRadius * (1 - a)) + (u 1 - 1 / 2) * (1 / 2)|
      ≤ |maxRadius| + 1 / 4 := by
    have htri := abs_add (u 2 * (maxRadius * (1 - a))) ((u 1 - 1 / 2) * (1 / 2))
    have h1 : |u 2 * (maxRadius * (1 - a))| ≤ |maxRadius| := by
      rw [abs_mul]
      have hu2 : |u 2| ≤ 1 := by
        rw [abs_of_nonneg h20]
        exact h21
      exact le_trans (mul_le_of_le_one_left (abs_nonneg _) hu2) hM
    have h2 : |(u 1 - 1 / 2) * (1 / 2)| ≤ 1 / 4 := by
      rw [abs_le]
      constructor <;> nlinarith
    linarith
  have hyb : |a * height - height / 2| ≤ 3 / 2 * |height| := by
    have htri := abs_add (a * height) (-(height / 2))
    rw [abs_neg] at htri
    have h1 : |a * height| ≤ |height| := by
      rw [abs_mul]
      have haa : |a| ≤ 1 := by rwa [abs_of_nonneg ha0]
      exact mul_le_of_le_one_left (abs_nonneg height) haa
    have h2 : |height / 2| = |height| / 2 := by
      rw [abs_div]
      norm_num
    have h3 : a * height + -(height / 2) = a * height - height / 2 := by ring
    rw [h3] at htri
    linarith
  refine ⟨?_, ?_, ?_⟩
  · rw [hx, hcancel]
    exact abs_mul_le_of_abs_le_one_left (Real.abs_cos_le_one _) hrad
  · rw [hy]
    exact hyb
  · rw [hz, hcancel]
    exact abs_mul_le_of_abs_le_one_left (Real.abs_sin_le_one _) hrad

/-- Modelled from the spec: the inverse-CDF ball sample the spec claims
every generator uses for the scattered state, `theta = 2·pi·U`,
`phi = acos(2U - 1)`, `r = cbrt(U) · R`.  Used only to compare the
particle-buffer scatter draw against the spec's words. -/
noncomputable def specBallSample (uu v w R : ℝ) : Vec3 ℝ :=
  let thetaS := 2 * Real.pi * uu
  let phiS := Real.arccos (2 * v - 1)
  let rS := w ^ ((1 : ℝ) / 3) * R
  ⟨rS * Real.sin phiS * Real.cos thetaS,
   rS * Real.sin phiS * Real.sin thetaS,
   rS * Real.cos phiS⟩

/-- A constant draw stream with every draw `1/2`. -/
noncomputable def halfStream : Unif := fun _ => 1 / 2

lemma halfStream_ok : halfStream.ok := fun _ => by
  unfold halfStream
  norm_num

/-- A constant draw stream with every draw `1`. -/
noncomputable def onesStream : Unif := fun _ => 1

lemma onesStream_ok : onesStream.ok := fun _ => by
  unfold onesStream
  norm_num

/-- The draw stream of the cone-silhouette counterexample: the angle draw
(index 3) is `0`, every other draw is `1`. -/
noncomputable def cexStream : Unif := fun n => if n = 3 then 0 else 1

/-- JavaScript division as used in `radiusAtY = maxRadius * (1 - y / height)`:
a zero denominator produces `NaN` (here `0 / 0`) — a non-finite value,
modelled as `none`. -/
noncomputable def jsDiv (a b : ℝ) : Option ℝ := if b = 0 then none else some (a / b)

/-- The formed x-coordinate of one `generateTreePositions` iteration with
the division inside `radiusAtY` tracked for a zero denominator: the
coordinate is a finite number exactly when the division is defined. -/
noncomputable def treeEntryCheckedX (height maxRadius : ℝ) (u : Unif) :
    Option ℝ :=
  let y := u 0 ^ ((3 : ℝ) / 2) * height
  (jsDiv y height).map (fun q =>
    let radiusAtY := maxRadius * (1 - q)
    let theta := u 1 * (Real.pi * 2 * 15)
    let r := Real.sqrt (u 2) * radiusAtY
    r * Real.cos theta)

/-- C4 — amended.  Every entry of `generateTreePositions` satisfies the
cone silhouette bound exactly: its planar radius is at most
`maxRadius * (1 - (y + height/2)/height)`.  Every entry of
`generateAttributeBuffers` satisfies the bound only up to the additive
branch noise `0.25` (`(Math.random() - 0.5) * 0.5` added to the radius),
and can genuinely exceed the silhouette: see the counterexample. -/
theorem cone_silhouette_bound (count : ℕ) (height maxRadius : ℝ) (u : Unif)
    (hu : u.ok) (hh : 0 < height) (hm : 0 ≤ maxRadius) :
    (∀ e ∈ generateTreePositions count height maxRadius u,
      planarRadius e.treePosition
        ≤ maxRadius * (1 - (e.treePosition.y + height / 2) / height))
    ∧ (∀ e ∈ generateAttributeBuffers count height maxRadius u,
      planarRadius e.treePosition
        ≤ maxRadius * (1 - (e.treePosition.y + height / 2) / height) + 1 / 4) := by
  constructor
  · intro e he
    obtain ⟨v, hv, rfl⟩ := mem_generateTreePositions hu he
    exact treeEntry_planar height maxRadius v hv hh hm
  · intro e he
    obtain ⟨v, hv, rfl⟩ := mem_generateAttributeBuffers hu he
    exact bufEntry_planar height maxRadius v hv hh hm

/-- C4 — counterexample to the original claim.  With the foliage
configuration (`height = 12`, `maxRadius = 4.5`) and the draw stream whose
angle draw is `0` and whose other draws are `1`, the generated particle
sits at the apex height (`y = 6`), where the cone silhouette is `0` — yet
its planar radius is `1/4` (the full branch noise), exceeding the bound by
`0.25`, which is no floating-point tolerance (the check uses slack
`1/100`, itself astronomically larger than double rounding error at this
magnitude). -/
theorem cone_silhouette_counterexample :
    planarRadius (bufEntry 12 (9 / 2) cexStream).treePosition = 1 / 4
    ∧ (9 / 2 : ℝ)
        * (1 - ((bufEntry 12 (9 / 2) cexStream).treePosition.y + 12 / 2) / 12)
        = 0
    ∧ ¬ ((1 / 4 : ℝ) ≤ 0 + 1 / 100) := by
  have h0 : cexStream 0 = 1 := rfl
  have h1 : cexStream 1 = 1 := rfl
  have h2 : cexStream 2 = 1 := rfl
  have h3 : cexStream 3 = 0 := rfl
  have hx : (bufEntry 12 (9 / 2) cexStream).treePosition.x
      = Real.cos (cexStream 3 * (Real.pi * 2))
          * (cexStream 2
              * ((9 / 2) * (1 - cexStream 0 ^ ((6 : ℝ) / 5) * 12 / 12))
            + (cexStream 1 - 1 / 2) * (1 / 2)) := rfl
  have hz : (bufEntry 12 (9 / 2) cexStream).treePosition.z
      = Real.sin (cexStream 3 * (Real.pi * 2))
          * (cexStream 2
              * ((9 / 2) * (1 - cexStream 0 ^ ((6 : ℝ) / 5) * 12 / 12))
            + (cexStream 1 - 1 / 2) * (1 / 2)) := rfl
  have hy : (bufEntry 12 (9 / 2) cexStream).treePosition.y
      = cexStream 0 ^ ((6 : ℝ) / 5) * 12 - 12 / 2 := rfl
  have hxval : (bufEntry 12 (9 / 2) cexStream).treePosition.x = 1 / 4 := by
    rw [hx, h0, h1, h2, h3, Real.one_rpow]
    norm_num [Real.cos_zero]
  have hzval : (bufEntry 12 (9 / 2) cexStream).treePosition.z = 0 := by
    rw [hz, h0, h1, h2, h3, Real.one_rpow]
    norm_num [Real.sin_zero]
  have hyval : (bufEntry 12 (9 / 2) cexStream).treePosition.y = 6 := by
    rw [hy, h0, Real.one_rpow]
    norm_num
  refine ⟨?_, ?_, by norm_num⟩
  · unfold planarRadius
    rw [hxval, hzval]
    rw [show ((1 : ℝ) / 4) ^ 2 + (0 : ℝ) ^ 2 = (1 / 4) ^ 2 by norm_num,
      Real.sqrt_sq (by norm_num)]
  · rw [hyval]
    norm_num

/-- C4 — witness: the exact silhouette bound at the ornament configuration
(`height = 11`, `maxRadius = 4`) on the all-halves draw stream. -/
theorem cone_silhouette_witness :
    planarRadius (treeEntry 11 4 halfStream).treePosition
      ≤ 4 * (1 - ((treeEntry 11 4 halfStream).treePosition.y + 11 / 2) / 11) := by
  exact (cone_silhouette_bound 1 11 4 halfStream halfStream_ok (by norm_num)
      (by norm_num)).1
    (treeEntry 11 4 halfStream) (List.mem_cons_self _ _)

/-- C5 — amended.  The scattered positions of `generateTreePositions`
(radius 15), `generatePilePositions` (radius 18), and the polaroid slots
(radius 18) are drawn by the inverse-CDF ball formula and lie within their
configured scatter radius of the origin.  `generateAttributeBuffers` does
not use the ball formula: each scatter coordinate is drawn uniformly in
the cube `[-12.5, 12.5]³` (`(Math.random() - 0.5) * 25`), so its scattered
positions lie within `12.5·√3 ≈ 21.7 < 25` of the origin but are not
ball-distributed. -/
theorem scattered_positions_in_ball (count : ℕ)
    (height maxRadius radius floorY : ℝ) (u : Unif) (hu : u.ok) :
    (∀ e ∈ generateTreePositions count height maxRadius u,
      normSq e.scatterPosition ≤ 15 ^ 2)
    ∧ (∀ e ∈ generatePilePositions count radius floorY u,
      normSq e.scatterPosition ≤ 18 ^ 2)
    ∧ (∀ e ∈ polaroidSlots u, normSq e.scatterPosition ≤ 18 ^ 2)
    ∧ (∀ e ∈ generateAttributeBuffers count height maxRadius u,
      |e.scatterPosition.x| ≤ 25 / 2 ∧ |e.scatterPosition.y| ≤ 25 / 2
      ∧ |e.scatterPosition.z| ≤ 25 / 2
      ∧ normSq e.scatterPosition ≤ 3 * (25 / 2) ^ 2) := by
  refine ⟨?_, ?_, ?_, ?_⟩
  · intro e he
    obtain ⟨v, hv, rfl⟩ := mem_generateTreePositions hu he
    exact treeEntry_scatter_normSq height maxRadius v hv
  · intro e he
    obtain ⟨v, hv, rfl⟩ := mem_generatePilePositions hu he
    exact pileEntry_scatter_normSq radius floorY v hv
  · intro e he
    obtain ⟨i, v, hv, rfl⟩ := mem_polaroidSlots hu he
    exact polaroidSlot_scatter_normSq i v hv
  · intro e he
    obtain ⟨v, hv, rfl⟩ := mem_generateAttributeBuffers hu he
    exact bufEntry_scatter_bounds height maxRadius v hv

/-- C5 — counterexample to the original claim.  On the all-ones draw
stream the particle buffer places the scattered position at
`(12.5, 12.5, 12.5)` — a cube corner direction — whereas the claimed ball
formula evaluated at the same draws gives a point with x-coordinate `0`
(it lands on the pole `(0, 0, 25)`): the buffer generator does not draw
its scattered positions by `r = cbrt(U)·R`, `theta = 2πU`,
`phi = acos(2U-1)`. -/
theorem scattered_positions_counterexample :
    (bufEntry 12 (9 / 2) onesStream).scatterPosition.x = 25 / 2
    ∧ (specBallSample 1 1 1 25).x = 0
    ∧ ((25 : ℝ) / 2) ≠ 0 := by
  have hx : (bufEntry 12 (9 / 2) onesStream).scatterPosition.x
      = (onesStream 4 - 1 / 2) * 25 := rfl
  have h4 : onesStream 4 = 1 := rfl
  refine ⟨?_, ?_, by norm_num⟩
  · rw [hx, h4]
    norm_num
  · show (1 : ℝ) ^ ((1 : ℝ) / 3) * 25 * Real.sin (Real.arccos (2 * 1 - 1))
        * Real.cos (2 * Real.pi * 1) = 0
    rw [show (2 : ℝ) * 1 - 1 = 1 by norm_num, Real.arccos_one, Real.sin_zero]
    ring

/-- C5 — witness: the ball bound for a polaroid slot scatter position on
the all-halves draw stream. -/
theorem scattered_positions_witness :
    normSq (polaroidSlot 0 halfStream).scatterPosition ≤ 18 ^ 2 := by
  have h := (scattered_positions_in_ball 1 12 (9 / 2) 6 (-6) halfStream
    halfStream_ok).2.2.1
  refine h (polaroidSlot 0 halfStream) ?_
  rw [polaroidSlots, List.mem_map]
  exact ⟨0, by norm_num, rfl⟩

/-- C6 — amended.  Every generator returns exactly the requested number of
entries for every count (`count = 0` gives the empty population, `count =
1` a single entry), for arbitrary shape parameters.  With a nonzero
height (resp. pile radius) every component of every formed and scattered
position is a finite real, bounded by explicit functions of the
parameters.  The original claim's "any shape parameters" fails: at
`height = 0` the source divides `0 / 0` in `radiusAtY`, producing `NaN` —
see the counterexample. -/
theorem generator_count_and_bounded_output (count : ℕ)
    (height maxRadius radius floorY : ℝ) (u : Unif) (hu : u.ok)
    (hh : height ≠ 0) (hr : radius ≠ 0) :
    (generateTreePositions count height maxRadius u).length = count
    ∧ (generatePilePositions count radius floorY u).length = count
    ∧ (generateAttributeBuffers count height maxRadius u).length = count
    ∧ (∀ e ∈ generateTreePositions count height maxRadius u,
        |e.treePosition.x| ≤ |maxRadius| ∧ |e.treePosition.y| ≤ 3 / 2 * |height|
        ∧ |e.treePosition.z| ≤ |maxRadius|
        ∧ normSq e.scatterPosition ≤ 15 ^ 2)
    ∧ (∀ e ∈ generatePilePositions count radius floorY u,
        |e.treePosition.x| ≤ |radius| ∧ floorY ≤ e.treePosition.y
        ∧ e.treePosition.y ≤ floorY + 5 / 2 ∧ |e.treePosition.z| ≤ |radius|
        ∧ normSq e.scatterPosition ≤ 18 ^ 2)
    ∧ (∀ e ∈ generateAttributeBuffers count height maxRadius u,
        |e.treePosition.x| ≤ |maxRadius| + 1 / 4
        ∧ |e.treePosition.y| ≤ 3 / 2 * |height|
        ∧ |e.treePosition.z| ≤ |maxRadius| + 1 / 4
        ∧ normSq e.scatterPosition ≤ 3 * (25 / 2) ^ 2) := by
  refine ⟨generateTreePositions_length count height maxRadius u,
    generatePilePositions_length count radius floorY u,
    generateAttributeBuffers_length count height maxRadius u, ?_, ?_, ?_⟩
  · intro e he
    obtain ⟨v, hv, rfl⟩ := mem_generateTreePositions hu he
    obtain ⟨hb1, hb2, hb3⟩ := treeEntry_formed_bounds height maxRadius v hv hh
    exact ⟨hb1, hb2, hb3, treeEntry_scatter_normSq height maxRadius v hv⟩
  · intro e he
    obtain ⟨v, hv, rfl⟩ := mem_generatePilePositions hu he
    obtain ⟨hb1, hb2, hb3, hb4⟩ := pileEntry_formed_bounds radius floorY v hv hr
    exact ⟨hb1, hb2, hb3, hb4, pileEntry_scatter_normSq radius floorY v hv⟩
  · intro e he
    obtain ⟨v, hv, rfl⟩ := mem_generateAttributeBuffers hu he
    obtain ⟨hb1, hb2, hb3⟩ := bufEntry_formed_bounds height maxRadius v hv hh
    exact ⟨hb1, hb2, hb3, (bufEntry_scatter_bounds height maxRadius v hv).2.2.2⟩

/-- C6 — counterexample to the original claim.  At `height = 0` — a value
the claim's "any shape parameters" admits — `y = Math.pow(U, 1.5) * 0 = 0`
and `radiusAtY` computes `0 / 0`, which is `NaN` in JavaScript: the formed
x-coordinate of the single requested entry is not a finite number (the
division-checked evaluation is `none`), while the count itself is still
correct. -/
theorem generator_output_counterexample :
    treeEntryCheckedX 0 4 halfStream = none
    ∧ (generateTreePositions 1 0 4 halfStream).length = 1 := by
  constructor
  · simp [treeEntryCheckedX, jsDiv]
  · rfl

/-- C6 — witness: exact counts at counts 0 and 1 and the boundedness of
the single generated pile entry, at `radius = 6`, `floorY = -6`. -/
theorem generator_count_witness :
    (generateTreePositions 0 12 (9 / 2) halfStream).length = 0
    ∧ (generatePilePositions 1 6 (-6) halfStream).length = 1
    ∧ (-6 : ℝ) ≤ (pileEntry 6 (-6) halfStream).treePosition.y
    ∧ (pileEntry 6 (-6) halfStream).treePosition.y ≤ -6 + 5 / 2 := by
  have h := generator_count_and_bounded_output 1 12 (9 / 2) 6 (-6) halfStream
    halfStream_ok (by norm_num) (by norm_num)
  have hmem : pileEntry 6 (-6) halfStream ∈ generatePilePositions 1 6 (-6) halfStream :=
    List.mem_cons_self _ _
  obtain ⟨-, hy1, hy2, -⟩ := h.2.2.2.2.1 (pileEntry 6 (-6) halfStream) hmem
  exact ⟨(generator_count_and_bounded_output 0 12 (9 / 2) 6 (-6) halfStream
      halfStream_ok (by norm_num) (by norm_num)).1,
    h.2.1, hy1, hy2⟩

/-- One rendered transform (position, rotation, scale), the per-frame
output the components hand to the renderer. -/
structure Transform (α : Type) : Type where
  position : Vec3 α
  rotation : Vec3 α
  scale : Vec3 α
deriving DecidableEq, Repr

/-- The mutable per-frame state of the `Ornaments` component: the
persisted `userData.progress`, the memoized endpoint table `data`, and the
instance matrices written by `setMatrixAt`. -/
structure OrnamentsState (α : Type) : Type where
  progress : α
  data : List (DualPosition α)
  matrices : List (Transform α)

/-- The whole `useFrame` body of `Ornaments.tsx`: advance progress, then
recompute every instance matrix from the endpoint table; the endpoint
table itself is only read. -/
def ornamentsFrame (st : OrnamentsState α) (s : TreeState)
    (delta time scaleFactor : α) : OrnamentsState α :=
  let newProgress := ornamentsProgressStep st.progress s delta
  { progress := newProgress
    data := st.data
    matrices := st.data.map (fun item =>
      { position := blendPosition item.scatterPosition item.treePosition newProgress
        rotation := ornamentsRotationUpdate newProgress time item.rotation
        scale := ⟨ornamentsScale item.scale scaleFactor (ease newProgress),
                  ornamentsScale item.scale scaleFactor (ease newProgress),
                  ornamentsScale item.scale scaleFactor (ease newProgress)⟩ }) }

/-- The mutable per-frame state of one `Gift`: the persisted progress, the
group transform, the two animated emissive intensities, and the generated
`GiftData` (endpoints plus the stable id used as pulse phase). -/
structure GiftState : Type where
  progress : ℝ
  position : Vec3 ℝ
  rotation : Vec3 ℝ
  scale : Vec3 ℝ
  boxEmissiveIntensity : ℝ
  ribbonEmissiveIntensity : ℝ
  data : DualPosition ℝ
  id : ℝ

/-- The whole `useFrame` body of `Gift` (`Foliage.tsx`): advance progress,
recompute the group transform from the endpoints, and pulse the material
glow with the id as phase offset; the endpoint data is only read. -/
noncomputable def giftFrame (st : GiftState) (s : TreeState) (delta time : ℝ) :
    GiftState :=
  let newProgress := giftProgressStep st.progress s delta
  let pulse := Real.sin (time * (5 / 2) + st.id * (1 / 5)) * (1 / 2) + 1 / 2
  { progress := newProgress
    position := blendPosition st.data.scatterPosition st.data.treePosition newProgress
    rotation := giftRotationUpdate newProgress time delta st.data.rotation st.rotation
    scale := ⟨st.data.scale, st.data.scale, st.data.scale⟩
    boxEmissiveIntensity := 1 / 4 + pulse * (1 / 2)
    ribbonEmissiveIntensity := 3 / 20 + pulse * (3 / 10)
    data := st.data
    id := st.id }

/-- The mutable per-frame state of the `Foliage` component: its two
animated uniforms and the memoized attribute buffers. -/
structure FoliageState : Type where
  uTime : ℝ
  uProgress : ℝ
  buffers : List BufEntry

/-- The whole `useFrame` body of `Foliage` (`Foliage.tsx`): write the two
uniforms; the attribute buffers are not touched. -/
noncomputable def foliageFrame (st : FoliageState) (s : TreeState) (time : ℝ) :
    FoliageState :=
  { uTime := time
    uProgress := foliageProgressStep st.uProgress s
    buffers := st.buffers }

/-- C9 — confirmed.  A frame update leaves every endpoint table exactly as
it was: the ornament `data` list, the gift `data` record and the foliage
attribute buffers after a frame are the very values before it; the frame
writes only the progress scalar (as the documented smoothing step), the
derived per-element transforms (one per endpoint entry), and — for gifts
and foliage — the animated uniforms and glow intensities. -/
theorem endpoints_immutable_per_frame (stO : OrnamentsState ℚ) (stG : GiftState)
    (stF : FoliageState) (s : TreeState) (delta time scaleFactor : ℚ)
    (deltaR timeR : ℝ) :
    (ornamentsFrame stO s delta time scaleFactor).data = stO.data
    ∧ (giftFrame stG s deltaR timeR).data = stG.data
    ∧ (giftFrame stG s deltaR timeR).id = stG.id
    ∧ (foliageFrame stF s timeR).buffers = stF.buffers
    ∧ (ornamentsFrame stO s delta time scaleFactor).progress
        = ornamentsProgressStep stO.progress s delta
    ∧ (ornamentsFrame stO s delta time scaleFactor).matrices.length
        = stO.data.length := by
  refine ⟨rfl, rfl, rfl, rfl, rfl, ?_⟩
  simp [ornamentsFrame]

/-- An uploaded file as `handleUpload` (`src/App.tsx`) sees it: name, size
in bytes, MIME type, and the object URL `URL.createObjectURL(file)` would
yield for it. -/
structure UploadFile : Type where
  name : String
  size : ℕ
  type : String
  url : String

/-- Constant `maxPhotos = 20` of `handleUpload`. -/
def maxPhotos : ℕ := 20

/-- Constant `maxSize = 5 * 1024 * 1024` (5 MB) of `handleUpload`. -/
def maxSize : ℕ := 5 * 1024 * 1024

/-- The `newPhotos` accumulation of `handleUpload` over
`Array.from(files).forEach`: a file is skipped when the cap is already
reached (`newPhotos.length + photos.length >= maxPhotos`), when
`file.size > maxSize`, or when its MIME type does not start with
`image/`. -/
def handleUploadNew (photos : List String) (files : List UploadFile) :
    List String :=
  files.foldl (fun newPhotos file =>
    if maxPhotos ≤ newPhotos.length + photos.length then newPhotos
    else if maxSize < file.size then newPhotos
    else if ¬ file.type.startsWith ("image/") then newPhotos
    else newPhotos ++ [file.url]) []

/-- The state update of `handleUpload`:
`setPhotos(prev => [...prev, ...newPhotos].slice(0, maxPhotos))`. -/
def handleUpload (photos : List String) (files : List UploadFile) :
    List String :=
  (photos ++ handleUploadNew photos files).take maxPhotos

lemma upload_foldl_sound (photos : List String) (files : List UploadFile) :
    ∀ (acc : List String) (url : String),
      url ∈ List.foldl (fun newPhotos file =>
          if maxPhotos ≤ newPhotos.length + photos.length then newPhotos
          else if maxSize < file.size then newPhotos
          else if ¬ file.type.startsWith ("image/") then newPhotos
          else newPhotos ++ [file.url]) acc files →
      url ∈ acc ∨ ∃ f ∈ files, f.url = url ∧ f.size ≤ maxSize
        ∧ f.type.startsWith ("image/") = true := by
  induction files with
  | nil =>
    intro acc url hurl
    exact Or.inl hurl
  | cons f fs ih =>
    intro acc url hurl
    rw [List.foldl_cons] at hurl
    rcases ih _ url hurl with hacc | ⟨g, hg, hgood⟩
    · by_cases h1 : maxPhotos ≤ acc.length + photos.length
      · rw [if_pos h1] at hacc
        exact Or.inl hacc
      · rw [if_neg h1] at hacc
        by_cases h2 : maxSize < f.size
        · rw [if_pos h2] at hacc
          exact Or.inl hacc
        · rw [if_neg h2] at hacc
          by_cases h3 : f.type.startsWith ("image/")
          · rw [if_neg (not_not_intro h3)] at hacc
            rcases List.mem_append.mp hacc with h | h
            · exact Or.inl h
            · have hurlh : url = f.url := by simpa using h
              exact Or.inr ⟨f, List.mem_cons_self f fs,
                hurlh.symm, le_of_not_lt h2, h3⟩
          · rw [if_pos h3] at hacc
            exact Or.inl hacc
    · exact Or.inr ⟨g, List.mem_cons_of_mem f hg, hgood⟩

/-- C10 — confirmed.  The polaroid slot table has fixed length 20 whatever
the draws were, so `slots[i % slots.length]` is in range for every photo
index; and the upload handler caps the stored photo list at 20 entries
while every URL it adds comes from a file of at most 5 MB whose MIME type
starts with `image/`. -/
theorem polaroid_slots_and_upload_safety (u : Unif) (i : ℕ)
    (photos : List String) (files : List UploadFile) :
    (polaroidSlots u).length = 20
    ∧ i % (polaroidSlots u).length < (polaroidSlots u).length
    ∧ (handleUpload photos files).length ≤ 20
    ∧ (∀ url ∈ handleUploadNew photos files,
        ∃ f ∈ files, f.url = url ∧ f.size ≤ maxSize
          ∧ f.type.startsWith ("image/") = true) := by
  refine ⟨polaroidSlots_length u, ?_, ?_, ?_⟩
  · refine Nat.mod_lt i ?_
    rw [polaroidSlots_length]
    norm_num
  · calc (handleUpload photos files).length
        ≤ maxPhotos := List.length_take_le _ _
      _ = 20 := rfl
  · intro url hurl
    rcases upload_foldl_sound photos files [] url hurl with h | h
    · simp at h
    · exact h

/-- C10 — witness: the slot table of the all-halves stream, slot lookup
for photo index 25, and the cap for a two-file upload (one valid image,
one oversized file). -/
theorem polaroid_slots_and_upload_witness :
    (polaroidSlots halfStream).length = 20
    ∧ 25 % (polaroidSlots halfStream).length < (polaroidSlots halfStream).length
    ∧ (handleUpload [] [⟨"a.png", 100, "image/png", "blob:a"⟩,
        ⟨"b.png", 6 * 1024 * 1024, "image/png", "blob:b"⟩]).length ≤ 20 := by
  obtain ⟨h1, h2, h3, -⟩ := polaroid_slots_and_upload_safety halfStream 25 []
    [⟨"a.png", 100, "image/png", "blob:a"⟩,
     ⟨"b.png", 6 * 1024 * 1024, "image/png", "blob:b"⟩]
  exact ⟨h1, h2, h3⟩

end Sue
